import Mathlib

/-!
Shallow embedding of `data_collector.py` (repository daishir0/datacollector).

Conventions used throughout this development:
* Python byte strings are `List Nat` (one entry per byte).
* Python values that may be either `bytes` or `str` (the `content` argument
  threaded through `convert_content`) are the sum type `PyVal`.
* SQLite `DATETIME` columns (`created_at`, `updated_at`) and parsed
  datetimes (file mtimes, `Last-Modified` headers) are `Nat` epoch values;
  `datetime.strptime` and datetime comparison become `Nat` order.  The
  claims under verification all presuppose well-formed timestamps.
* External capabilities used by the script (filesystem, HTTP, the
  `markitdown` converter, `hashlib.sha1`, UTF-8 decoding) are fields of an
  explicit `Env` record; the script's own logic is translated literally.
* Python exceptions are threaded explicitly: a function body that can raise
  returns its exception message through `Except`/`Option`/`Flow`.
* Database rows live in a `List Record`; every `UPDATE ... WHERE id = ?`
  becomes `dbUpdate`, which rewrites exactly the rows with that id.
-/

namespace DataCollector

/-- Python byte strings, one `Nat` per byte. -/
abbrev Bytes := List Nat

/-- ASCII bytes of a string literal (used to write the magic numbers the way
the source writes them, e.g. `b"%PDF"`). -/
def strBytes (s : String) : Bytes := s.data.map Char.toNat

/-- The six keys of the `FILE_TYPES` dictionary, in source order. -/
inductive FileKind
  | html
  | text
  | pdf
  | word
  | excel
  | powerpoint
deriving DecidableEq, Repr

/-- One value of the `FILE_TYPES` dictionary. -/
structure TypeInfo where
  content_types : List String
  extensions : List String
  magic_numbers : List Bytes
  converter_map : List (String × String) := []
deriving DecidableEq, Repr

/-- `DataCollector.FILE_TYPES`, in Python dict insertion order (which the
source's `for ... in self.FILE_TYPES.items()` loops observe). -/
def FILE_TYPES : List (FileKind × TypeInfo) :=
  [ (FileKind.html,
     { content_types := ["text/html", "application/xhtml+xml"]
       extensions := [".html", ".htm", ".xhtml"]
       -- the ASCII bytes of b"<!DOCTYPE html>", b"<html", b"<?xml"
       magic_numbers :=
         [[0x3C, 0x21, 0x44, 0x4F, 0x43, 0x54, 0x59, 0x50, 0x45, 0x20,
           0x68, 0x74, 0x6D, 0x6C, 0x3E],
          [0x3C, 0x68, 0x74, 0x6D, 0x6C],
          [0x3C, 0x3F, 0x78, 0x6D, 0x6C]] }),
    (FileKind.text,
     { content_types := ["text/plain", "text/txt"]
       extensions := [".txt"]
       magic_numbers := [] }),
    (FileKind.pdf,
     { content_types := ["application/pdf", "application/x-pdf",
                         "application/acrobat", "application/vnd.pdf"]
       extensions := [".pdf"]
       -- the ASCII bytes of b"%PDF"
       magic_numbers := [[0x25, 0x50, 0x44, 0x46]] }),
    (FileKind.word,
     { content_types := ["application/msword",
                         "application/vnd.openxmlformats-officedocument.wordprocessingml.document",
                         "application/vnd.ms-word",
                         "application/vnd.ms-word.document.macroEnabled.12"]
       extensions := [".doc", ".docx"]
       magic_numbers := [[0xD0, 0xCF, 0x11, 0xE0], [0x50, 0x4B, 0x03, 0x04]]
       converter_map := [(".doc", "doc"), (".docx", "docx")] }),
    (FileKind.excel,
     { content_types := ["application/vnd.ms-excel",
                         "application/vnd.openxmlformats-officedocument.spreadsheetml.sheet",
                         "application/vnd.ms-excel.sheet.macroEnabled.12"]
       extensions := [".xls", ".xlsx"]
       magic_numbers := [[0xD0, 0xCF, 0x11, 0xE0], [0x50, 0x4B, 0x03, 0x04]]
       converter_map := [(".xls", "xls"), (".xlsx", "xlsx")] }),
    (FileKind.powerpoint,
     { content_types := ["application/vnd.ms-powerpoint",
                         "application/vnd.openxmlformats-officedocument.presentationml.presentation",
                         "application/vnd.ms-powerpoint.presentation.macroEnabled.12"]
       extensions := [".ppt", ".pptx"]
       magic_numbers := [[0xD0, 0xCF, 0x11, 0xE0], [0x50, 0x4B, 0x03, 0x04]]
       converter_map := [(".ppt", "ppt"), (".pptx", "pptx")] }) ]

/-- `needle.isPrefixOf` at some position of `hay`: Python's substring test
`needle in hay` on strings, over explicit character lists. -/
def listInfix (needle : List Char) (hay : List Char) : Bool :=
  needle.isPrefixOf hay ||
    match hay with
    | [] => false
    | _ :: rest => listInfix needle rest

/-- Python `needle in hay` for strings. -/
def pyIn (needle hay : String) : Bool := listInfix needle.data hay.data

/-- Python `.lower()` (ASCII case folding, which is all the registry
strings and extensions need), over explicit character lists so that proofs
can evaluate it. -/
def strToLower (s : String) : String := String.mk (s.data.map Char.toLower)

/-- Python `.startswith(pre)` for strings, over explicit character lists. -/
def strStartsWith (s pre : String) : Bool := pre.data.isPrefixOf s.data

/-- Python `.strip()`: remove leading and trailing whitespace. -/
def strTrim (s : String) : String :=
  String.mk (((s.data.dropWhile Char.isWhitespace).reverse.dropWhile Char.isWhitespace).reverse)

/-- A Python value that is either a byte string or a text string (the
`content` argument of `convert_content` receives both shapes at different
call sites of the source). -/
inductive PyVal
  | bytes (b : Bytes)
  | str (s : String)
deriving DecidableEq, Repr

/-- Python slicing `content[:n]` on either shape. -/
def pyTake (n : Nat) : PyVal → PyVal
  | PyVal.bytes b => PyVal.bytes (b.take n)
  | PyVal.str s => PyVal.str (String.mk (s.data.take n))

/-- Error message Python raises for `str.startswith(b"...")`. -/
def startswithTypeErrorMsg : String :=
  "TypeError: startswith first arg must be str or a tuple of str, not bytes"

/-- `bytes.startswith`: `m` is an initial segment of `b`. -/
def bytesPrefix : Bytes → Bytes → Bool
  | [], _ => true
  | _ :: _, [] => false
  | a :: as, b :: bs => a == b && bytesPrefix as bs

/-- Python `content.startswith(magic)` with a `bytes` magic number.  For a
`bytes` receiver this is a prefix test; for a `str` receiver CPython raises
`TypeError` (the magic argument is a byte string). -/
def pyStartswithBytes : PyVal → Bytes → Except String Bool
  | PyVal.bytes b, m => Except.ok (bytesPrefix m b)
  | PyVal.str _, _ => Except.error startswithTypeErrorMsg

/-- `any(content_start.startswith(magic) for magic in magics)`: lazy, so the
`TypeError` fires at the first magic number tried. -/
def magicMatch (cs : PyVal) : List Bytes → Except String Bool
  | [] => Except.ok false
  | m :: ms =>
    match pyStartswithBytes cs m with
    | Except.error e => Except.error e
    | Except.ok b => if b then Except.ok true else magicMatch cs ms

/-- The magic-number loop of `detect_file_type` (first matching kind wins). -/
def magicFind (cs : PyVal) : List (FileKind × TypeInfo) → Except String (Option FileKind)
  | [] => Except.ok none
  | (k, info) :: rest =>
    match magicMatch cs info.magic_numbers with
    | Except.error e => Except.error e
    | Except.ok b => if b then Except.ok (some k) else magicFind cs rest

/-- `DataCollector.detect_file_type(content, content_type)`.

Resolution order as in the source: claimed content-type substring match over
the registry first (only when `content_type` is truthy), then the redundant
`text/plain` fallback, then magic numbers over `content[:32]`.  The result
is `Except` because the magic-number stage raises `TypeError` when `content`
is a `str`. -/
def detect_file_type (content : PyVal) (content_type : String) :
    Except String (Option FileKind) :=
  if content_type ≠ "" then
    match FILE_TYPES.find?
        (fun p => p.2.content_types.any (fun ct => pyIn ct (strToLower content_type))) with
    | some p => Except.ok (some p.1)
    | none =>
      if pyIn "text/plain" (strToLower content_type) then Except.ok (some FileKind.text)
      else magicFind (pyTake 32 content) FILE_TYPES
  else magicFind (pyTake 32 content) FILE_TYPES

/-- `DataCollector.check_content_type(content_type)`. -/
def check_content_type (content_type : String) : Bool :=
  if content_type = "" then false
  else FILE_TYPES.any
    (fun p => p.2.content_types.any (fun ct => pyIn ct (strToLower content_type)))

/-- `DataCollector.detect_file_extension(content, content_type)`.  Note the
source matches the content-type substrings case-sensitively here and never
lowers them; `Except` again because `startswith` with a bytes argument
raises on `str` content. -/
def detect_file_extension (content : PyVal) (content_type : String) :
    Except String (Option String) :=
  match pyStartswithBytes content [0x50, 0x4B, 0x03, 0x04] with
  | Except.error e => Except.error e
  | Except.ok isZip =>
    if isZip then
      if content_type ≠ "" then
        if pyIn "wordprocessingml" content_type then Except.ok (some ".docx")
        else if pyIn "spreadsheetml" content_type then Except.ok (some ".xlsx")
        else if pyIn "presentationml" content_type then Except.ok (some ".pptx")
        else Except.ok none
      else Except.ok none
    else
      match pyStartswithBytes content [0xD0, 0xCF, 0x11, 0xE0] with
      | Except.error e => Except.error e
      | Except.ok isOle =>
        if isOle then
          if content_type ≠ "" then
            if pyIn "msword" content_type then Except.ok (some ".doc")
            else if pyIn "ms-excel" content_type then Except.ok (some ".xls")
            else if pyIn "ms-powerpoint" content_type then Except.ok (some ".ppt")
            else Except.ok none
          else Except.ok none
        else Except.ok none

/-- One row of the sqlite `record` table, columns in `CREATE TABLE` order
(the source indexes `SELECT *` rows positionally: `record[0:4]` and
`record[7]`). `error` starts NULL, hence `Option String`. -/
structure Record where
  id : Nat
  title : String
  text : String
  reference : String
  group_id : Nat
  created_by : String
  created_at : Nat
  updated_at : Nat
  deleted : Nat
  hash : String
  update_flg : Nat
  error : Option String
deriving DecidableEq, Repr

/-- One element of the remote feed consumed by `sync_records`. -/
structure RemoteRecord where
  id : Nat
  title : String
  text : String
  reference : String
  group_id : Nat
  created_by : String
  created_at : Nat
  updated_at : Nat
deriving DecidableEq, Repr

/-- An HTTP response as the source observes it: the `content-type` header
(with `headers.get` default `""`), the parsed `Last-Modified` header when
present, the raw body, and `response.text` (the decoded body). -/
structure Resp where
  contentType : String
  lastModified : Option Nat
  body : Bytes
  bodyText : String
deriving DecidableEq, Repr

/-- Observable outcomes of `self.md.convert(temp_file)`: a result object
with `text_content`, a `None` result, or a raised exception. -/
inductive MdResult
  | ok (text_content : String)
  | null
  | raises (msg : String)
deriving DecidableEq, Repr

/-- The external capabilities the script calls out to.  The filesystem and
network are snapshots (single-threaded single-pass run, per the source's
execution model): each function is consulted at the same points the source
performs the corresponding call. -/
structure Env where
  pathExists : String → Bool
  mtime : String → Nat
  readFile : String → Bytes
  httpHead : String → Except String Resp
  httpGet : String → Except String Resp
  selectOne : String → String → Option String
  mdConvert : String → MdResult
  sha1 : String → String
  decodeBytes : Bytes → String

/-- Mutable state threaded through `process_content`:
* `db` — the sqlite table (every statement is committed immediately);
* `fs` — the temporary artifacts currently existing on disk;
* `markdownVar` — the function-local Python variable `markdown_text`,
  which persists across loop iterations (`none` = not yet assigned);
* `mdCalls` — ghost log of the paths handed to `self.md.convert`, used
  only to state theorems about which artifacts reach the converter. -/
structure St where
  db : List Record
  fs : List String
  markdownVar : Option String
  mdCalls : List String
deriving DecidableEq, Repr

/-- Initial state of a run over a just-synchronized table. -/
def initSt (db : List Record) : St :=
  { db := db, fs := [], markdownVar := none, mdCalls := [] }

/-- `UPDATE record SET ... WHERE id = ?`: rewrite every row carrying `i`. -/
def dbUpdate (i : Nat) (f : Record → Record) (db : List Record) : List Record :=
  db.map (fun r => if r.id = i then f r else r)

/-- `UPDATE record SET error = ? WHERE id = ?` followed by `commit`. -/
def setError (i : Nat) (m : String) (db : List Record) : List Record :=
  dbUpdate i (fun r => { r with error := some m }) db

/-- `UPDATE record SET text = ?, hash = ?, update_flg = 1 WHERE id = ?`
with `hash` computed as `hashlib.sha1(markdown_text.encode()).hexdigest()`,
followed by `commit`. -/
def setTextHash (sha1 : String → String) (i : Nat) (t : String)
    (db : List Record) : List Record :=
  dbUpdate i (fun r => { r with text := t, hash := sha1 t, update_flg := 1 }) db

/-- First row with a given id (`SELECT ... WHERE id = ?`). -/
def findRow (db : List Record) (i : Nat) : Option Record :=
  db.find? (fun r => r.id = i)

/-- `self.FILE_TYPES[file_type]`. -/
def lookupInfo (k : FileKind) : TypeInfo :=
  (Option.map Prod.snd (FILE_TYPES.find? (fun p => p.1 = k))).getD
    { content_types := [], extensions := [], magic_numbers := [] }

/-- The name `save_temp_file` builds:
`f"temp_{timestamp}{FILE_TYPES[file_type]['extensions'][0]}"`.  The
`%Y%m%d%H%M%S` timestamp is the `now : Nat` parameter rendered in decimal. -/
def temp_file_name (now : Nat) (file_type : FileKind) : String :=
  "temp_" ++ toString now ++ (lookupInfo file_type).extensions.headD ""

/-- Error message Python raises for writing a `str` to a binary file. -/
def bytesRequiredMsg : String :=
  "TypeError: a bytes-like object is required, not str"

/-- `DataCollector.save_temp_file(content, file_type)`.

`open(temp_file, "wb")` creates the file before any write happens, so the
artifact is added to `fs` first; `f.write(content)` then succeeds for
`bytes` content and raises `TypeError` for `str` content, in which case the
freshly created (empty) file stays on disk. -/
def save_temp_file (now : Nat) (content : PyVal) (file_type : FileKind)
    (fs : List String) : Except String String × List String :=
  let temp_file := temp_file_name now file_type
  let fs1 := temp_file :: fs
  match content with
  | PyVal.bytes _ => (Except.ok temp_file, fs1)
  | PyVal.str _ => (Except.error bytesRequiredMsg, fs1)

/-- `raise ValueError("未対応のファイル形式です")`. -/
def unsupportedFormatMsg : String := "未対応のファイル形式です"

/-- The message of the `NameError` that replaces every exception raised
inside the inner `try` of `convert_content`: the source's only import from
the converter package is `from markitdown import MarkItDown`, so the except
clause `markitdown._markitdown.FileConversionException` itself raises
`NameError` when evaluated (which happens whenever any exception reaches
that handler), and that `NameError` is what the outer handler records. -/
def nameErrorMsg : String := "NameError: name markitdown is not defined"

/-- `DataCollector.convert_content(content, content_type, id)`.

Returns the Python return value (`some text_content` for a conversion
result, `none` for `return None`) together with the updated state.  Control
flow mirrors the source:
* `detect_file_type` raising or yielding no kind → outer handler writes the
  message into `error`, commits, returns `None`;
* `text` kind → byte content is decoded UTF-8-with-ignore, `str` content is
  passed through, no artifact is created;
* otherwise `save_temp_file` runs; if it raises (only possible for `str`
  content) the outer handler records the error and the just-created
  artifact is NOT removed (the inner `try`/`finally` was never entered);
* otherwise the converter runs inside the inner `try`: on a non-`ok`
  outcome the except-clause lookup raises `NameError` (see `nameErrorMsg`),
  the `finally` removes the artifact in every case, and the outer handler
  records the error and returns `None`. -/
def convert_content (env : Env) (now : Nat) (content : PyVal)
    (content_type : String) (i : Nat) (st : St) : Option String × St :=
  match detect_file_type content content_type with
  | Except.error e => (none, { st with db := setError i e st.db })
  | Except.ok none => (none, { st with db := setError i unsupportedFormatMsg st.db })
  | Except.ok (some file_type) =>
    if file_type = FileKind.text then
      match content with
      | PyVal.bytes b => (some (env.decodeBytes b), st)
      | PyVal.str s => (some s, st)
    else
      match save_temp_file now content file_type st.fs with
      | (Except.error e, fs1) =>
        (none, { st with fs := fs1, db := setError i e st.db })
      | (Except.ok temp_file, fs1) =>
        let st1 : St := { st with fs := fs1, mdCalls := temp_file :: st.mdCalls }
        match env.mdConvert temp_file with
        | MdResult.ok text_content =>
          (some text_content, { st1 with fs := st1.fs.erase temp_file })
        | MdResult.null =>
          (none, { st1 with fs := st1.fs.erase temp_file,
                            db := setError i nameErrorMsg st1.db })
        | MdResult.raises _ =>
          (none, { st1 with fs := st1.fs.erase temp_file,
                            db := setError i nameErrorMsg st1.db })

/-- `os.path.splitext(reference)[1]`: the extension of the last path
component, leading dots of the component not counting as separators. -/
def splitextExt (s : String) : String :=
  let base := (s.data.reverse.takeWhile (fun c => c ≠ '/')).reverse
  let leading := base.takeWhile (fun c => c = '.')
  let rest := base.drop leading.length
  if rest.any (fun c => c = '.') then
    String.mk ('.' :: (rest.reverse.takeWhile (fun c => c ≠ '.')).reverse)
  else ""

/-- The literal extension → content-type dictionary of the local-file
branch (default `application/octet-stream`). -/
def ext_content_type (ext : String) : String :=
  if ext = ".doc" then "application/msword"
  else if ext = ".docx" then
    "application/vnd.openxmlformats-officedocument.wordprocessingml.document"
  else if ext = ".xls" then "application/vnd.ms-excel"
  else if ext = ".xlsx" then
    "application/vnd.openxmlformats-officedocument.spreadsheetml.sheet"
  else if ext = ".ppt" then "application/vnd.ms-powerpoint"
  else if ext = ".pptx" then
    "application/vnd.openxmlformats-officedocument.presentationml.presentation"
  else if ext = ".txt" then "text/plain"
  else "application/octet-stream"

/-- `reference.split(",", 1)` (the guard of the branch guarantees a comma
is present). -/
def splitFirstComma (s : String) : String × String :=
  (String.mk (s.data.takeWhile (fun c => c ≠ ',')),
   String.mk ((s.data.dropWhile (fun c => c ≠ ',')).tail))

/-- Skip message of the local-file staleness check (the source interpolates
the two datetimes). -/
def fileUpToDateMsg (file_time record_time : Nat) : String :=
  "ファイルは最新です（ファイル更新: " ++ toString file_time ++
    ", レコード更新: " ++ toString record_time ++ "）"

/-- Skip message of the bare-URL `Last-Modified` staleness check. -/
def urlUpToDateMsg (last_modified record_time : Nat) : String :=
  "コンテンツは最新です（URL最終更新: " ++ toString last_modified ++
    ", レコード更新: " ++ toString record_time ++ "）"

/-- Skip message of the unsupported-content-type check. -/
def unsupportedCtMsg (content_type : String) : String :=
  "未対応のコンテンツタイプです: " ++ content_type

/-- `raise ValueError("コンテンツの変換に失敗しました")`. -/
def conversionFailedMsg : String := "コンテンツの変換に失敗しました"

/-- Missing-file message of the fallback local branch. -/
def fileMissingMsg : String := "ファイルが存在しません"

/-- Message of the `UnboundLocalError` raised when line 572 reads the local
`markdown_text` before any iteration has assigned it. -/
def unboundLocalMsg : String :=
  "UnboundLocalError: local variable markdown_text referenced before assignment"

/-- How the body of the per-record `try` hands control back to the loop:
`cont` models `continue` (and branch exits that skip the shared
text-update), `fall` models falling through to the shared text-update at
the bottom of the `try`, `raised m` models an exception with message `m`
propagating to the per-record handler. -/
inductive Flow
  | cont
  | fall
  | raised (msg : String)
deriving DecidableEq, Repr

/-- The staleness short-circuit of the local-file branch, line 401:
`if text and file_time <= record_time`, over a row's `text`, `reference`
and `updated_at`. -/
abbrev staleSkip (env : Env) (text ref : String) (updated : Nat) : Prop :=
  text ≠ "" ∧ env.mtime ref ≤ updated

/-- Local-file branch (`if os.path.exists(reference):`, lines 396-446).
On staleness skip it writes the message and continues; otherwise it reads
the file, derives a content type from the extension, converts, writes
`text`/`hash`/`update_flg` a first time, sets `markdown_text`, and falls
through to the shared text-update (which repeats the same write). -/
def branchLocal (env : Env) (now : Nat) (r : Record) (st : St) : St × Flow :=
  let file_time := env.mtime r.reference
  if staleSkip env r.text r.reference r.updated_at then
    ({ st with db := setError r.id (fileUpToDateMsg file_time r.updated_at) st.db },
     Flow.cont)
  else
    let content := env.readFile r.reference
    let content_type := ext_content_type (strToLower (splitextExt r.reference))
    match convert_content env now (PyVal.bytes content) content_type r.id st with
    | (none, st1) => (st1, Flow.raised conversionFailedMsg)
    | (some markdown_text, st1) =>
      ({ st1 with db := setTextHash env.sha1 r.id markdown_text st1.db,
                  markdownVar := some markdown_text }, Flow.fall)

/-- URL+selector branch (lines 448-465).  When the selector matches no
element the source has no else-arm: nothing is written, nothing raised, and
control falls through to the shared text-update with `markdown_text` still
holding whatever a previous iteration left there. -/
def branchUrlSel (env : Env) (now : Nat) (r : Record) (st : St) : St × Flow :=
  let p := splitFirstComma r.reference
  match env.httpGet p.1 with
  | Except.error e => (st, Flow.raised e)
  | Except.ok resp =>
    match env.selectOne resp.bodyText (strTrim p.2) with
    | some contentText =>
      match convert_content env now (PyVal.str contentText) resp.contentType r.id st with
      | (none, st1) => (st1, Flow.raised conversionFailedMsg)
      | (some markdown_text, st1) =>
        ({ st1 with markdownVar := some markdown_text }, Flow.fall)
    | none => (st, Flow.fall)

/-- Content-type gate plus GET plus conversion of the bare-URL branch
(lines 499-532); shared tail of `branchBareUrl`. -/
def bareUrlFetch (env : Env) (now : Nat) (r : Record) (st : St)
    (headResp : Resp) : St × Flow :=
  let content_type := headResp.contentType
  if check_content_type content_type = false then
    ({ st with db := setError r.id (unsupportedCtMsg content_type) st.db }, Flow.cont)
  else
    match env.httpGet r.reference with
    | Except.error e => (st, Flow.raised e)
    | Except.ok resp =>
      match convert_content env now (PyVal.bytes resp.body) resp.contentType r.id st with
      | (none, st1) => (st1, Flow.raised conversionFailedMsg)
      | (some markdown_text, st1) =>
        ({ st1 with markdownVar := some markdown_text }, Flow.fall)

/-- Bare-URL branch (lines 467-535): HEAD probe (a transport failure is
re-raised), `Last-Modified` staleness skip only when prior text exists and
the header is present, then `bareUrlFetch`. -/
def branchBareUrl (env : Env) (now : Nat) (r : Record) (st : St) : St × Flow :=
  match env.httpHead r.reference with
  | Except.error e => (st, Flow.raised e)
  | Except.ok headResp =>
    if r.text ≠ "" then
      match headResp.lastModified with
      | some lm =>
        if lm ≤ r.updated_at then
          ({ st with db := setError r.id (urlUpToDateMsg lm r.updated_at) st.db },
           Flow.cont)
        else bareUrlFetch env now r st headResp
      | none => bareUrlFetch env now r st headResp
    else bareUrlFetch env now r st headResp

/-- Fallback branch (lines 536-563): reached when the reference neither
exists on disk nor starts with `http`.  Since `os.path.exists` already
answered `false` at the top of the `try` and the filesystem is a snapshot,
the inner existence re-check always takes the missing-file arm; the
remaining lines (546-563, which would read a stale `response` local and
feed the reference string itself to the converter) are unreachable and are
rendered here with an empty content type only so the arm is total. -/
def branchElse (env : Env) (now : Nat) (r : Record) (st : St) : St × Flow :=
  if env.pathExists r.reference = false then
    ({ st with db := setError r.id fileMissingMsg st.db }, Flow.cont)
  else
    let file_time := env.mtime r.reference
    if file_time ≤ r.updated_at then
      ({ st with db := setError r.id (fileUpToDateMsg file_time r.updated_at) st.db },
       Flow.cont)
    else
      match convert_content env now (PyVal.str r.reference) "" r.id st with
      | (none, st1) => (st1, Flow.raised conversionFailedMsg)
      | (some markdown_text, st1) =>
        ({ st1 with markdownVar := some markdown_text }, Flow.fall)

/-- Branch dispatch of the per-record `try` (lines 396, 448, 467, 536). -/
def tryBody (env : Env) (now : Nat) (r : Record) (st : St) : St × Flow :=
  if env.pathExists r.reference then branchLocal env now r st
  else if r.reference.data.contains ',' && strStartsWith (strToLower r.reference) "http" then
    branchUrlSel env now r st
  else if strStartsWith (strToLower r.reference) "http" then branchBareUrl env now r st
  else branchElse env now r st

/-- The whole per-record `try` (lines 395-578): the dispatched branch, then
the shared text-update at lines 565-576 when control falls through.  The
second component is the exception (message) escaping to the per-record
handler, if any; reading the never-assigned `markdown_text` raises
`UnboundLocalError`. -/
def runTry (env : Env) (now : Nat) (r : Record) (st : St) : St × Option String :=
  match tryBody env now r st with
  | (st1, Flow.cont) => (st1, none)
  | (st1, Flow.raised m) => (st1, some m)
  | (st1, Flow.fall) =>
    match st1.markdownVar with
    | none => (st1, some unboundLocalMsg)
    | some markdown_text =>
      ({ st1 with db := setTextHash env.sha1 r.id markdown_text st1.db }, none)

/-- One iteration of the record loop (lines 383-590): empty references are
skipped before the `try` with no database write; any exception escaping the
`try` is caught at lines 580-590, its message written into the record's
`error`, committed, and the loop continues. -/
def processRecord (env : Env) (now : Nat) (st : St) (r : Record) : St :=
  if r.reference = "" then st
  else
    match runTry env now r st with
    | (st1, none) => st1
    | (st1, some m) => { st1 with db := setError r.id m st1.db }

/-- The record loop over a snapshot list of rows. -/
def runRecords (env : Env) (now : Nat) (rs : List Record) (st : St) : St :=
  rs.foldl (processRecord env now) st

/-- `DataCollector.process_content()`: `SELECT * FROM record` once, then
the loop over that snapshot. -/
def process_content (env : Env) (now : Nat) (st : St) : St :=
  runRecords env now st.db st

/-- One iteration of the `sync_records` upsert loop: recompute the incoming
text's fingerprint (empty text hashes to the empty string), then `UPDATE`
in place when the id exists (not touching `deleted`, `update_flg`, `error`)
or `INSERT` with the table defaults otherwise. -/
def upsertOne (sha1 : String → String) (db : List Record) (rr : RemoteRecord) :
    List Record :=
  let hash_value := if rr.text ≠ "" then sha1 rr.text else ""
  if db.any (fun r => r.id = rr.id) then
    db.map (fun r =>
      if r.id = rr.id then
        { r with title := rr.title, text := rr.text, reference := rr.reference,
                 group_id := rr.group_id, created_by := rr.created_by,
                 created_at := rr.created_at, updated_at := rr.updated_at,
                 hash := hash_value }
      else r)
  else
    db ++ [{ id := rr.id, title := rr.title, text := rr.text,
             reference := rr.reference, group_id := rr.group_id,
             created_by := rr.created_by, created_at := rr.created_at,
             updated_at := rr.updated_at, deleted := 0, hash := hash_value,
             update_flg := 0, error := none }]

/-- `DataCollector.sync_records()` over an already-fetched remote feed. -/
def sync_records (sha1 : String → String) (feed : List RemoteRecord)
    (db : List Record) : List Record :=
  feed.foldl (upsertOne sha1) db

/-- `DataCollector.update_records()`: select the rows with
`update_flg = 1`, POST each one individually (`postOk` is the remote
acknowledgement; a failure is only logged and the loop continues).  The
function performs no database write at all — the returned table is the
input table; the second component records every attempted push with its
acknowledgement. -/
def update_records (postOk : Nat → String → Bool) (db : List Record) :
    List Record × List (Nat × Bool) :=
  let flagged := db.filter (fun r => r.update_flg == 1)
  (db, flagged.map (fun r => (r.id, postOk r.id r.text)))

/-- `main()`: pull, pipeline, push, on a fresh (empty) table — the run
starts from a clean slate because `init_database` archives any existing
database file and creates a new one. -/
def main_pipeline (env : Env) (now : Nat) (feed : List RemoteRecord)
    (postOk : Nat → String → Bool) : List Record :=
  let db1 := sync_records env.sha1 feed []
  let st := process_content env now (initSt db1)
  (update_records postOk st.db).1

/-- The spec's round-trip invariant: whenever `update_flg = 1`, the stored
`hash` is the fingerprint of the stored `text`. -/
def hashInv (sha1 : String → String) (db : List Record) : Prop :=
  ∀ r ∈ db, r.update_flg = 1 → r.hash = sha1 r.text

/-- All dirty flags clear (state of the table right after the pull). -/
def flagsZero (db : List Record) : Prop := ∀ r ∈ db, r.update_flg = 0

/-- The database writes `process_content` can perform on behalf of the
record with id `i`: chains of `setError i _` and `setTextHash sha1 i _`
starting from the initial table.  Every branch of the per-record code emits
exactly such a chain; the relation is what the frame and invariant lemmas
below induct over. -/
inductive WritesAt (s : String → String) (i : Nat) (db : List Record) :
    List Record → Prop
  | refl : WritesAt s i db db
  | err (m : String) (db' : List Record) (h : WritesAt s i db db') :
      WritesAt s i db (setError i m db')
  | upd (t : String) (db' : List Record) (h : WritesAt s i db db') :
      WritesAt s i db (setTextHash s i t db')

/-! ### Concrete instances used by witnesses and counterexamples -/

/-- Environment for the selector-mismatch scenario: `/f.txt` is a local
plain-text file whose decoded content is `"T1"`; every CSS selector query
matches nothing. -/
def envC5 : Env :=
  { pathExists := fun p => p == "/f.txt"
    mtime := fun _ => 100
    readFile := fun _ => [104, 105]
    httpHead := fun _ => Except.error "head failed"
    httpGet := fun _ => Except.ok
      { contentType := "text/html", lastModified := none, body := [],
        bodyText := "<html>x</html>" }
    selectOne := fun _ _ => none
    mdConvert := fun _ => MdResult.null
    sha1 := fun s => s ++ "#"
    decodeBytes := fun _ => "T1" }

/-- Record 1 of the selector-mismatch scenario: a local `.txt` file with no
prior text (so it is fetched and converted). -/
def rC5a : Record :=
  { id := 1, title := "a", text := "", reference := "/f.txt", group_id := 0,
    created_by := "", created_at := 0, updated_at := 0, deleted := 0,
    hash := "", update_flg := 0, error := none }

/-- Record 2 of the selector-mismatch scenario: a `URL,selector` reference
whose selector matches no element of the fetched page. -/
def rC5b : Record := { rC5a with id := 2, reference := "http://e.com,div.c" }

/-- Environment for the temp-artifact leak: only the converter and
classifier matter; the payload will be a `str`. -/
def envC6 : Env :=
  { pathExists := fun _ => false
    mtime := fun _ => 0
    readFile := fun _ => []
    httpHead := fun _ => Except.error "e"
    httpGet := fun _ => Except.error "e"
    selectOne := fun _ _ => none
    mdConvert := fun _ => MdResult.ok "unused"
    sha1 := fun s => s
    decodeBytes := fun _ => "" }

/-- Environment for the success-path scenarios: `/g.txt` is a local
plain-text file decoding to `"TX"`. -/
def envC7 : Env :=
  { pathExists := fun p => p == "/g.txt"
    mtime := fun _ => 100
    readFile := fun _ => [104]
    httpHead := fun _ => Except.error "e"
    httpGet := fun _ => Except.error "e"
    selectOne := fun _ _ => none
    mdConvert := fun _ => MdResult.null
    sha1 := fun s => s ++ "#"
    decodeBytes := fun _ => "TX" }

/-- Record for the success-path scenarios: empty prior text, local file. -/
def rC7 : Record :=
  { id := 3, title := "", text := "", reference := "/g.txt", group_id := 0,
    created_by := "", created_at := 0, updated_at := 0, deleted := 0,
    hash := "", update_flg := 0, error := none }

/-- A locally modified record staged for push (dirty flag set). -/
def rC8 : Record :=
  { id := 4, title := "", text := "body", reference := "", group_id := 0,
    created_by := "", created_at := 0, updated_at := 0, deleted := 0,
    hash := "body#", update_flg := 1, error := none }

/-- Environment for the `.docx` scenario: `/tmp/report.docx` exists, its
bytes start with the ZIP header `PK 03 04`, and the converter succeeds with
text `"W"`. -/
def envC9 : Env :=
  { pathExists := fun p => p == "/tmp/report.docx"
    mtime := fun _ => 100
    readFile := fun _ => [0x50, 0x4B, 0x03, 0x04, 0x01]
    httpHead := fun _ => Except.error "e"
    httpGet := fun _ => Except.error "e"
    selectOne := fun _ _ => none
    mdConvert := fun _ => MdResult.ok "W"
    sha1 := fun s => s ++ "#"
    decodeBytes := fun _ => "" }

/-- The `.docx` scenario record: `reference = "/tmp/report.docx"`, no prior
text. -/
def rC9 : Record :=
  { id := 5, title := "", text := "", reference := "/tmp/report.docx",
    group_id := 0, created_by := "", created_at := 0, updated_at := 0,
    deleted := 0, hash := "", update_flg := 0, error := none }

/-- Environment for the staleness-skip witness: `/w.txt` exists with
modification time 5. -/
def envC4 : Env :=
  { pathExists := fun p => p == "/w.txt"
    mtime := fun _ => 5
    readFile := fun _ => []
    httpHead := fun _ => Except.error "e"
    httpGet := fun _ => Except.error "e"
    selectOne := fun _ _ => none
    mdConvert := fun _ => MdResult.null
    sha1 := fun s => s
    decodeBytes := fun _ => "" }

/-- Staleness-skip witness record: non-empty prior text, `updated_at = 9`
at or after the file mtime 5. -/
def rC4 : Record :=
  { id := 11, title := "", text := "prev", reference := "/w.txt",
    group_id := 0, created_by := "", created_at := 0, updated_at := 9,
    deleted := 0, hash := "h", update_flg := 0, error := none }

/-- Environment for the failure-isolation witness: the HEAD probe of every
URL raises. -/
def envC1 : Env :=
  { pathExists := fun _ => false
    mtime := fun _ => 0
    readFile := fun _ => []
    httpHead := fun _ => Except.error "headboom"
    httpGet := fun _ => Except.error "e"
    selectOne := fun _ _ => none
    mdConvert := fun _ => MdResult.null
    sha1 := fun s => s
    decodeBytes := fun _ => "" }

/-- Failure-isolation witness: the bare-URL record whose fetch raises. -/
def rC1a : Record :=
  { id := 21, title := "", text := "", reference := "http://x", group_id := 0,
    created_by := "", created_at := 0, updated_at := 0, deleted := 0,
    hash := "", update_flg := 0, error := none }

/-- Failure-isolation witness: the unrelated record after the failing one
(empty reference, skipped before the `try`). -/
def rC1b : Record := { rC1a with id := 22, reference := "" }

/-- Environment for the frame-effect witness: `/h.txt` is a plain-text
local file with mtime 50, decoding to `"N"`. -/
def envC10 : Env :=
  { pathExists := fun p => p == "/h.txt"
    mtime := fun _ => 50
    readFile := fun _ => [104]
    httpHead := fun _ => Except.error "e"
    httpGet := fun _ => Except.error "e"
    selectOne := fun _ _ => none
    mdConvert := fun _ => MdResult.null
    sha1 := fun s => s ++ "#"
    decodeBytes := fun _ => "N" }

/-- Frame-effect witness record: `updated_at = 7` strictly before the file
mtime 50, so the record is processed, and processed again on any later run
with the same timestamps. -/
def rC10 : Record :=
  { id := 31, title := "", text := "old", reference := "/h.txt",
    group_id := 0, created_by := "", created_at := 0, updated_at := 7,
    deleted := 0, hash := "old#", update_flg := 0, error := none }

/-! ### Helper lemmas -/

/-- `bytesPrefix` is the initial-segment relation. -/
theorem bytesPrefix_iff (m : Bytes) :
    ∀ b : Bytes, bytesPrefix m b = true ↔ ∃ t, b = m ++ t := by
  induction m with
  | nil =>
    intro b
    simp [bytesPrefix]
  | cons a as ih =>
    intro b
    cases b with
    | nil => simp [bytesPrefix]
    | cons c cs =>
      simp only [bytesPrefix, Bool.and_eq_true, beq_iff_eq, ih cs,
        List.cons_append, List.cons.injEq]
      constructor
      · rintro ⟨h1, t, h2⟩
        exact ⟨t, h1.symm, h2⟩
      · rintro ⟨t, h1, h2⟩
        exact ⟨h1.symm, t, h2⟩

/-- Rows not carrying the updated id are looked up unchanged. -/
theorem findRow_dbUpdate_ne (i j : Nat) (f : Record → Record)
    (hf : ∀ r, (f r).id = r.id) (hne : j ≠ i) :
    ∀ db, findRow (dbUpdate i f db) j = findRow db j := by
  intro db
  induction db with
  | nil => rfl
  | cons a tl ih =>
    have hid : (if a.id = i then f a else a).id = a.id := by
      by_cases h : a.id = i <;> simp [h, hf]
    by_cases haj : a.id = j
    · have hai : ¬ a.id = i := fun h => hne (haj.symm.trans h)
      simp only [dbUpdate, List.map_cons, if_neg hai, findRow]
      rw [List.find?_cons_of_pos _ (by simp [haj]), List.find?_cons_of_pos _ (by simp [haj])]
    · simp only [dbUpdate, List.map_cons, findRow]
      rw [List.find?_cons_of_neg _ (by simp [hid, haj]),
        List.find?_cons_of_neg _ (by simp [haj])]
      exact ih

/-- The row found at the updated id is the update of the row found before. -/
theorem findRow_dbUpdate_self (i : Nat) (f : Record → Record)
    (hf : ∀ r, (f r).id = r.id) :
    ∀ db row, findRow db i = some row →
      findRow (dbUpdate i f db) i = some (f row) := by
  intro db
  induction db with
  | nil =>
    intro row h
    simp [findRow] at h
  | cons a tl ih =>
    intro row h
    by_cases hai : a.id = i
    · rw [findRow, List.find?_cons_of_pos _ (by simp [hai])] at h
      cases h
      simp only [dbUpdate, List.map_cons, if_pos hai, findRow]
      rw [List.find?_cons_of_pos _ (by simp [hf, hai])]
    · rw [findRow, List.find?_cons_of_neg _ (by simp [hai])] at h
      simp only [dbUpdate, List.map_cons, if_neg hai, findRow]
      rw [List.find?_cons_of_neg _ (by simp [hf, hai])]
      exact ih row h

/-- Any per-row field (or tuple of fields) the updater leaves alone is left
alone across the whole table. -/
theorem dbUpdate_map_field {α : Type} (g : Record → α) (i : Nat)
    (f : Record → Record) (hf : ∀ r, g (f r) = g r) (db : List Record) :
    (dbUpdate i f db).map g = db.map g := by
  unfold dbUpdate
  rw [List.map_map]
  apply List.map_congr_left
  intro a _
  by_cases h : a.id = i <;> simp [h, hf]

/-- A row of an updated table comes from a row of the original table. -/
theorem mem_dbUpdate {i : Nat} {f : Record → Record} {db : List Record}
    {q : Record} (h : q ∈ dbUpdate i f db) :
    ∃ q0 ∈ db, q = if q0.id = i then f q0 else q0 := by
  unfold dbUpdate at h
  rw [List.mem_map] at h
  obtain ⟨q0, h0, hEq⟩ := h
  exact ⟨q0, h0, hEq.symm⟩

/-- A lookup succeeds whenever the id occurs in the table. -/
theorem findRow_exists {db : List Record} {i : Nat}
    (h : i ∈ db.map Record.id) : ∃ row, findRow db i = some row := by
  induction db with
  | nil => simp at h
  | cons a tl ih =>
    by_cases hai : a.id = i
    · exact ⟨a, by rw [findRow, List.find?_cons_of_pos _ (by simp [hai])]⟩
    · rw [List.map_cons] at h
      rcases List.mem_cons.mp h with h1 | h1
      · exact absurd h1.symm hai
      · obtain ⟨row, hrow⟩ := ih h1
        exact ⟨row, by rw [findRow, List.find?_cons_of_neg _ (by simp [hai])]; exact hrow⟩

/-- Frame: a chain of writes at id `i` does not change lookups at `j ≠ i`. -/
theorem WritesAt.findRow_ne {s : String → String} {i : Nat}
    {db db' : List Record} (h : WritesAt s i db db') {j : Nat} (hne : j ≠ i) :
    findRow db' j = findRow db j := by
  induction h with
  | refl => rfl
  | err m d _ ih =>
    rw [setError,
      findRow_dbUpdate_ne i j (fun r => { r with error := some m }) (fun r => rfl) hne, ih]
  | upd t d _ ih =>
    rw [setTextHash,
      findRow_dbUpdate_ne i j (fun r => { r with text := t, hash := s t, update_flg := 1 })
        (fun r => rfl) hne, ih]

/-- A chain of writes never changes the id column. -/
theorem WritesAt.map_id {s : String → String} {i : Nat} {db db' : List Record}
    (h : WritesAt s i db db') : db'.map Record.id = db.map Record.id := by
  induction h with
  | refl => rfl
  | err m d _ ih =>
    rw [setError,
      dbUpdate_map_field Record.id i (fun r => { r with error := some m }) (fun r => rfl), ih]
  | upd t d _ ih =>
    rw [setTextHash,
      dbUpdate_map_field Record.id i (fun r => { r with text := t, hash := s t, update_flg := 1 })
        (fun r => rfl), ih]

/-- Writing `error` preserves the fingerprint invariant. -/
theorem hashInv_setError {s : String → String} {i : Nat} {m : String}
    {db : List Record} (h : hashInv s db) : hashInv s (setError i m db) := by
  intro r hr
  obtain ⟨q, hq, hEq⟩ := mem_dbUpdate hr
  subst hEq
  split
  · exact h q hq
  · exact h q hq

/-- The text-update write establishes the fingerprint invariant for the
rows it touches and preserves it elsewhere. -/
theorem hashInv_setTextHash {s : String → String} {i : Nat} {t : String}
    {db : List Record} (h : hashInv s db) : hashInv s (setTextHash s i t db) := by
  intro r hr
  obtain ⟨q, hq, hEq⟩ := mem_dbUpdate hr
  subst hEq
  split
  · intro _
    rfl
  · exact h q hq

/-- The fingerprint invariant survives any chain of pipeline writes. -/
theorem WritesAt.hashInv_preserved {s : String → String} {i : Nat}
    {db db' : List Record} (h : WritesAt s i db db') (hinv : hashInv s db) :
    hashInv s db' := by
  induction h with
  | refl => exact hinv
  | err m d _ ih => exact hashInv_setError ih
  | upd t d _ ih => exact hashInv_setTextHash ih

/-- Chains of writes compose. -/
theorem WritesAt.comp {s : String → String} {i : Nat} {a b c : List Record}
    (h1 : WritesAt s i a b) (h2 : WritesAt s i b c) : WritesAt s i a c := by
  induction h2 with
  | refl => exact h1
  | err m d _ ih => exact WritesAt.err m d ih
  | upd t d _ ih => exact WritesAt.upd t d ih

/-- Every database write of `convert_content` is an error write for the
processed record. -/
theorem convert_content_writesAt (s : String → String) (env : Env) (now : Nat)
    (content : PyVal) (ct : String) (i : Nat) (st : St) :
    WritesAt s i st.db (convert_content env now content ct i st).2.db := by
  unfold convert_content
  split
  · exact WritesAt.err _ _ WritesAt.refl
  · exact WritesAt.err _ _ WritesAt.refl
  · split
    · split
      · exact WritesAt.refl
      · exact WritesAt.refl
    · split
      · exact WritesAt.err _ _ WritesAt.refl
      · split
        · exact WritesAt.refl
        · exact WritesAt.err _ _ WritesAt.refl
        · exact WritesAt.err _ _ WritesAt.refl

/-- When `convert_content` returns a conversion result, it wrote nothing to
the database, left `markdown_text` alone, and left no artifact behind. -/
theorem convert_content_some {env : Env} {now : Nat} {content : PyVal}
    {ct : String} {i : Nat} {st : St} {t : String} {st1 : St}
    (h : convert_content env now content ct i st = (some t, st1)) :
    st1.db = st.db ∧ st1.markdownVar = st.markdownVar ∧ st1.fs = st.fs := by
  unfold convert_content at h
  split at h
  · simp at h
  · simp at h
  · split at h
    · split at h
      · simp only [Prod.mk.injEq] at h
        rw [← h.2]
        exact ⟨rfl, rfl, rfl⟩
      · simp only [Prod.mk.injEq] at h
        rw [← h.2]
        exact ⟨rfl, rfl, rfl⟩
    · split at h
      · simp at h
      · rename_i temp_file fs1 heq
        have hsave : fs1 = temp_file :: st.fs := by
          unfold save_temp_file at heq
          split at heq <;> simp only [Prod.mk.injEq] at heq
          · rw [← heq.2, ← (Except.ok.injEq _ _).mp heq.1]
          · exact absurd heq.1 (by simp)
        split at h
        · simp only [Prod.mk.injEq] at h
          rw [← h.2]
          refine ⟨rfl, rfl, ?_⟩
          show (fs1.erase temp_file) = st.fs
          rw [hsave, List.erase_cons_head]
        · simp at h
        · simp at h

/-- Every database write of the local-file branch targets the processed
record. -/
theorem branchLocal_writesAt (env : Env) (now : Nat) (r : Record) (st : St) :
    WritesAt env.sha1 r.id st.db (branchLocal env now r st).1.db := by
  unfold branchLocal
  dsimp only
  split
  next hskip => exact WritesAt.err _ _ WritesAt.refl
  next hskip =>
    split
    next st1 heq =>
      have h := convert_content_writesAt env.sha1 env now
        (PyVal.bytes (env.readFile r.reference))
        (ext_content_type (strToLower (splitextExt r.reference))) r.id st
      rw [heq] at h
      exact h
    next mt st1 heq =>
      have h := convert_content_writesAt env.sha1 env now
        (PyVal.bytes (env.readFile r.reference))
        (ext_content_type (strToLower (splitextExt r.reference))) r.id st
      rw [heq] at h
      exact WritesAt.upd _ _ h

/-- Every database write of the URL+selector branch targets the processed
record. -/
theorem branchUrlSel_writesAt (env : Env) (now : Nat) (r : Record) (st : St) :
    WritesAt env.sha1 r.id st.db (branchUrlSel env now r st).1.db := by
  unfold branchUrlSel
  dsimp only
  split
  next e heq => exact WritesAt.refl
  next resp heq =>
    split
    next contentText hsel =>
      split
      next st1 heq2 =>
        have h := convert_content_writesAt env.sha1 env now
          (PyVal.str contentText) resp.contentType r.id st
        rw [heq2] at h
        exact h
      next mt st1 heq2 =>
        have h := convert_content_writesAt env.sha1 env now
          (PyVal.str contentText) resp.contentType r.id st
        rw [heq2] at h
        exact h
    next hsel => exact WritesAt.refl

/-- Every database write of the bare-URL fetch tail targets the processed
record. -/
theorem bareUrlFetch_writesAt (env : Env) (now : Nat) (r : Record) (st : St)
    (headResp : Resp) :
    WritesAt env.sha1 r.id st.db (bareUrlFetch env now r st headResp).1.db := by
  unfold bareUrlFetch
  dsimp only
  by_cases hc : check_content_type headResp.contentType = false
  · rw [if_pos hc]
    exact WritesAt.err _ _ WritesAt.refl
  · rw [if_neg hc]
    split
    next e heq => exact WritesAt.refl
    next resp heq =>
      split
      next st1 heq2 =>
        have h := convert_content_writesAt env.sha1 env now
          (PyVal.bytes resp.body) resp.contentType r.id st
        rw [heq2] at h
        exact h
      next mt st1 heq2 =>
        have h := convert_content_writesAt env.sha1 env now
          (PyVal.bytes resp.body) resp.contentType r.id st
        rw [heq2] at h
        exact h

/-- Every database write of the bare-URL branch targets the processed
record. -/
theorem branchBareUrl_writesAt (env : Env) (now : Nat) (r : Record) (st : St) :
    WritesAt env.sha1 r.id st.db (branchBareUrl env now r st).1.db := by
  unfold branchBareUrl
  split
  next e heq => exact WritesAt.refl
  next headResp heq =>
    split
    next htext =>
      split
      next lm hlm =>
        split
        next hle => exact WritesAt.err _ _ WritesAt.refl
        next hle => exact bareUrlFetch_writesAt env now r st headResp
      next hlm => exact bareUrlFetch_writesAt env now r st headResp
    next htext => exact bareUrlFetch_writesAt env now r st headResp

/-- Every database write of the fallback branch targets the processed
record. -/
theorem branchElse_writesAt (env : Env) (now : Nat) (r : Record) (st : St) :
    WritesAt env.sha1 r.id st.db (branchElse env now r st).1.db := by
  unfold branchElse
  dsimp only
  split
  next hex => exact WritesAt.err _ _ WritesAt.refl
  next hex =>
    split
    next hle => exact WritesAt.err _ _ WritesAt.refl
    next hle =>
      split
      next st1 heq =>
        have h := convert_content_writesAt env.sha1 env now
          (PyVal.str r.reference) "" r.id st
        rw [heq] at h
        exact h
      next mt st1 heq =>
        have h := convert_content_writesAt env.sha1 env now
          (PyVal.str r.reference) "" r.id st
        rw [heq] at h
        exact h

/-- Every database write of the dispatched branch targets the processed
record. -/
theorem tryBody_writesAt (env : Env) (now : Nat) (r : Record) (st : St) :
    WritesAt env.sha1 r.id st.db (tryBody env now r st).1.db := by
  unfold tryBody
  split
  · exact branchLocal_writesAt env now r st
  · split
    · exact branchUrlSel_writesAt env now r st
    · split
      · exact branchBareUrl_writesAt env now r st
      · exact branchElse_writesAt env now r st

/-- Every database write of the whole per-record `try` targets the
processed record. -/
theorem runTry_writesAt (env : Env) (now : Nat) (r : Record) (st : St) :
    WritesAt env.sha1 r.id st.db (runTry env now r st).1.db := by
  unfold runTry
  split
  · rename_i st1 heq
    have h := tryBody_writesAt env now r st
    rw [heq] at h
    exact h
  · rename_i st1 m heq
    have h := tryBody_writesAt env now r st
    rw [heq] at h
    exact h
  · rename_i st1 heq
    have h := tryBody_writesAt env now r st
    rw [heq] at h
    split
    · exact h
    · exact WritesAt.upd _ _ h

/-- Every database write of one loop iteration targets the processed
record. -/
theorem processRecord_writesAt (env : Env) (now : Nat) (st : St) (r : Record) :
    WritesAt env.sha1 r.id st.db (processRecord env now st r).db := by
  unfold processRecord
  split
  · exact WritesAt.refl
  · split
    · rename_i st1 heq
      have h := runTry_writesAt env now r st
      rw [heq] at h
      exact h
    · rename_i st1 m heq
      have h := runTry_writesAt env now r st
      rw [heq] at h
      exact WritesAt.err _ _ h

/-- Records whose ids do not occur in the remaining batch keep their row
across the rest of the loop. -/
theorem runRecords_findRow_ne (env : Env) (now : Nat) (rs : List Record)
    (j : Nat) (h : ∀ q ∈ rs, q.id ≠ j) :
    ∀ st, findRow (runRecords env now rs st).db j = findRow st.db j := by
  induction rs with
  | nil => intro st; rfl
  | cons a tl ih =>
    intro st
    have h1 : findRow (processRecord env now st a).db j = findRow st.db j :=
      (processRecord_writesAt env now st a).findRow_ne
        (fun hj => h a (List.mem_cons_self a tl) hj.symm)
    have h2 := ih (fun q hq => h q (List.mem_cons_of_mem a hq)) (processRecord env now st a)
    rw [runRecords, List.foldl_cons]
    rw [show List.foldl (processRecord env now) (processRecord env now st a) tl =
      runRecords env now tl (processRecord env now st a) from rfl]
    rw [h2, h1]

/-- The loop never changes the id column. -/
theorem runRecords_map_id (env : Env) (now : Nat) (rs : List Record) :
    ∀ st, (runRecords env now rs st).db.map Record.id = st.db.map Record.id := by
  induction rs with
  | nil => intro st; rfl
  | cons a tl ih =>
    intro st
    rw [runRecords, List.foldl_cons]
    rw [show List.foldl (processRecord env now) (processRecord env now st a) tl =
      runRecords env now tl (processRecord env now st a) from rfl]
    rw [ih (processRecord env now st a), (processRecord_writesAt env now st a).map_id]

/-- The loop preserves the fingerprint invariant. -/
theorem runRecords_hashInv (env : Env) (now : Nat) (rs : List Record) :
    ∀ st, hashInv env.sha1 st.db → hashInv env.sha1 (runRecords env now rs st).db := by
  induction rs with
  | nil => intro st h; exact h
  | cons a tl ih =>
    intro st h
    rw [runRecords, List.foldl_cons]
    exact ih (processRecord env now st a)
      ((processRecord_writesAt env now st a).hashInv_preserved h)

/-- The upsert of one pulled record leaves all dirty flags clear. -/
theorem flagsZero_upsertOne (s : String → String) (db : List Record)
    (rr : RemoteRecord) (h : flagsZero db) : flagsZero (upsertOne s db rr) := by
  intro r hr
  unfold upsertOne at hr
  dsimp only at hr
  by_cases hany : (db.any fun q => decide (q.id = rr.id)) = true
  · rw [if_pos hany, List.mem_map] at hr
    obtain ⟨q, hq, hEq⟩ := hr
    subst hEq
    split
    · exact h q hq
    · exact h q hq
  · rw [if_neg hany, List.mem_append] at hr
    rcases hr with hq | hq
    · exact h r hq
    · rw [List.mem_singleton] at hq
      subst hq
      rfl

/-- The pull leaves all dirty flags clear (no remote record arrives dirty;
the update arm does not touch the flag). -/
theorem flagsZero_sync (s : String → String) (feed : List RemoteRecord) :
    ∀ db, flagsZero db → flagsZero (sync_records s feed db) := by
  induction feed with
  | nil => intro db h; exact h
  | cons a tl ih =>
    intro db h
    exact ih (upsertOne s db a) (flagsZero_upsertOne s db a h)

/-- A table with all flags clear satisfies the fingerprint invariant
vacuously. -/
theorem hashInv_of_flagsZero {s : String → String} {db : List Record}
    (h : flagsZero db) : hashInv s db := by
  intro r hr h1
  have h0 := h r hr
  omega

/-- Evaluation rule: a branch that falls through with `markdown_text`
assigned reaches the shared text-update at lines 565-576. -/
theorem runTry_of_fall (env : Env) (now : Nat) (r : Record) (st st1 : St) (t : String)
    (hfall : tryBody env now r st = (st1, Flow.fall)) (hvar : st1.markdownVar = some t) :
    runTry env now r st = ({ st1 with db := setTextHash env.sha1 r.id t st1.db }, none) := by
  unfold runTry
  rw [hfall]
  obtain ⟨db1, fs1, mv1, mc1⟩ := st1
  dsimp only at hvar
  subst hvar
  rfl

/-- Evaluation rule: a raised exception propagates out of the `try`. -/
theorem runTry_of_raised (env : Env) (now : Nat) (r : Record) (st st1 : St) (m : String)
    (h : tryBody env now r st = (st1, Flow.raised m)) :
    runTry env now r st = (st1, some m) := by
  unfold runTry
  rw [h]

/-- Evaluation rule: `continue` skips the shared text-update. -/
theorem runTry_of_cont (env : Env) (now : Nat) (r : Record) (st st1 : St)
    (h : tryBody env now r st = (st1, Flow.cont)) :
    runTry env now r st = (st1, none) := by
  unfold runTry
  rw [h]

/-- Evaluation rule: a `try` that completes leaves its state as the
iteration's state. -/
theorem processRecord_of_none (env : Env) (now : Nat) (st : St) (r : Record) (st1 : St)
    (href : r.reference ≠ "") (h : runTry env now r st = (st1, none)) :
    processRecord env now st r = st1 := by
  unfold processRecord
  rw [if_neg href, h]

/-- Evaluation rule: the per-record handler at lines 580-590 writes the
exception message into `error` and commits. -/
theorem processRecord_of_some (env : Env) (now : Nat) (st : St) (r : Record) (st1 : St)
    (m : String) (href : r.reference ≠ "") (h : runTry env now r st = (st1, some m)) :
    processRecord env now st r = { st1 with db := setError r.id m st1.db } := by
  unfold processRecord
  rw [if_neg href, h]

/-- Evaluation rule: an existing path dispatches to the local-file branch. -/
theorem tryBody_local (env : Env) (now : Nat) (r : Record) (st : St)
    (hex : env.pathExists r.reference = true) :
    tryBody env now r st = branchLocal env now r st := by
  unfold tryBody
  rw [if_pos hex]

/-- Evaluation rule: the staleness short-circuit of the local branch. -/
theorem branchLocal_skip (env : Env) (now : Nat) (r : Record) (st : St)
    (h : staleSkip env r.text r.reference r.updated_at) :
    branchLocal env now r st =
      ({ st with
          db := setError r.id (fileUpToDateMsg (env.mtime r.reference) r.updated_at) st.db },
        Flow.cont) := by
  unfold branchLocal
  rw [if_pos h]

/-- Evaluation rule: a local-file pass whose conversion succeeds writes
the text and falls through. -/
theorem branchLocal_conv (env : Env) (now : Nat) (r : Record) (st : St)
    (hno : ¬ staleSkip env r.text r.reference r.updated_at)
    {t : String} {st1 : St}
    (hconv : convert_content env now (PyVal.bytes (env.readFile r.reference))
        (ext_content_type (strToLower (splitextExt r.reference))) r.id st = (some t, st1)) :
    branchLocal env now r st =
      ({ st1 with db := setTextHash env.sha1 r.id t st1.db,
                  markdownVar := some t }, Flow.fall) := by
  unfold branchLocal
  rw [if_neg hno]
  dsimp only
  rw [hconv]

/-- Evaluation rule: conversion of a byte payload classified `word` saves
it under the kind's first registered extension (`.doc`), runs the external
converter on that path, and removes the artifact. -/
theorem convert_content_word_ok (env : Env) (now : Nat) (b : Bytes) (ct : String)
    (i : Nat) (st : St) (t : String)
    (hdet : detect_file_type (PyVal.bytes b) ct = Except.ok (some FileKind.word))
    (hmd : env.mdConvert (temp_file_name now FileKind.word) = MdResult.ok t) :
    convert_content env now (PyVal.bytes b) ct i st =
      (some t, { st with mdCalls := temp_file_name now FileKind.word :: st.mdCalls }) := by
  unfold convert_content
  simp only [hdet]
  simp only [if_neg (show ¬ FileKind.word = FileKind.text from by decide)]
  unfold save_temp_file
  simp only [hmd]
  simp only [List.erase_cons_head]

/-! ### Claim theorems -/

/-- C2: for every record, whenever `update_flg = 1` the stored hash equals
the fingerprint recomputed from the stored text, across the whole run
(pull, pipeline, push): the pull leaves every flag clear, the only pipeline
write that sets `update_flg = 1` stores the text together with its
fingerprint in the same update, and the push writes nothing. -/
theorem C2_hash_invariant (env : Env) (now : Nat) (feed : List RemoteRecord)
    (postOk : Nat → String → Bool) :
    hashInv env.sha1 (main_pipeline env now feed postOk) := by
  show hashInv env.sha1 (process_content env now (initSt (sync_records env.sha1 feed []))).db
  unfold process_content
  exact runRecords_hashInv env now _ _
    (hashInv_of_flagsZero
      (flagsZero_sync env.sha1 feed [] (fun r hr => absurd hr (List.not_mem_nil r))))

/-- C8 counterexample: a record with `update_flg = 1` whose push is
acknowledged (`postOk` answers `true`, and the push list records the
acknowledged attempt) still has `update_flg = 1` afterwards — the claim
says a confirmed push makes it 0, but `update_records` performs no
database write at all. -/
theorem C8_counterexample :
    (update_records (fun _ _ => true) [rC8]).1 = [rC8] ∧
    rC8.update_flg = 1 ∧
    (update_records (fun _ _ => true) [rC8]).2 = [(4, true)] :=
  ⟨rfl, rfl, rfl⟩

/-- C8 amended: the push never clears `update_flg` — the table is returned
unchanged whether each send is acknowledged or not — and every record with
`update_flg = 1` is attempted individually, so one failed push does not
block the others. -/
theorem C8_amended (postOk : Nat → String → Bool) (db : List Record) :
    (update_records postOk db).1 = db ∧
    (update_records postOk db).2 =
      (db.filter (fun r => r.update_flg == 1)).map
        (fun r => (r.id, postOk r.id r.text)) :=
  ⟨rfl, rfl⟩

/-- C5 failing input: in a batch where record 1 (a plain-text local file)
converts successfully to `"T1"` and record 2 is a `URL,selector` reference
whose selector matches nothing, record 2 does not terminate as a fetch
failure: its `text` is overwritten with record 1's `"T1"`, `update_flg`
becomes 1 and no error is recorded — the fall-through text-update reuses
the stale loop-local `markdown_text`. -/
theorem C5_stale_text_pollution :
    envC5.selectOne "<html>x</html>" "div.c" = none ∧
    (findRow (process_content envC5 0 (initSt [rC5a, rC5b])).db 1).map Record.text =
      some "T1" ∧
    (findRow (process_content envC5 0 (initSt [rC5a, rC5b])).db 2).map Record.text =
      some "T1" ∧
    (findRow (process_content envC5 0 (initSt [rC5a, rC5b])).db 2).map Record.update_flg =
      some 1 ∧
    (findRow (process_content envC5 0 (initSt [rC5a, rC5b])).db 2).map Record.error =
      some none := by
  refine ⟨rfl, ?_, ?_, ?_, ?_⟩ <;> decide

/-- C6 failing input: `convert_content` invoked with a `str` payload (as
the URL+selector branch does) and content type `text/html` classifies the
payload as `html`, creates the temporary artifact `temp_0.html`, then the
binary write raises `TypeError` before the inner `try`/`finally` is
entered — `convert` returns `None` with the artifact still on disk. -/
theorem C6_artifact_leak :
    (convert_content envC6 0 (PyVal.str "payload") "text/html" 7 (initSt [])).1 =
      none ∧
    (convert_content envC6 0 (PyVal.str "payload") "text/html" 7 (initSt [])).2.fs =
      ["temp_0.html"] := by
  refine ⟨?_, ?_⟩ <;> decide

/-- C7 counterexample: a record that reaches the successful terminal
outcome (text `"TX"` stored, `update_flg = 1`) has no message written into
`error` — the field is still NULL after the run, so success does not write
an outcome summary. -/
theorem C7_counterexample :
    (findRow (process_content envC7 0 (initSt [rC7])).db 3).map Record.update_flg =
      some 1 ∧
    (findRow (process_content envC7 0 (initSt [rC7])).db 3).map Record.text =
      some "TX" ∧
    (findRow (process_content envC7 0 (initSt [rC7])).db 3).map Record.error =
      some none := by
  refine ⟨?_, ?_, ?_⟩ <;> decide

/-- C3 counterexample: a byte string beginning with `%PDF` accompanied by
claimed content-type `text/html` is classified `html`, not `pdf` — the
content-type registry match runs before the magic-number check. -/
theorem C3_counterexample :
    detect_file_type (PyVal.bytes [0x25, 0x50, 0x44, 0x46, 0x2D]) "text/html" =
      Except.ok (some FileKind.html) ∧
    (some FileKind.html : Option FileKind) ≠ some FileKind.pdf :=
  ⟨rfl, by decide⟩

/-- C3 amended: for every content byte-string beginning with `%PDF`,
`detect_file_type` returns `pdf` whenever the claimed content-type is
absent/empty or matches no entry of the content-type registry — the
registry match takes precedence over the magic number, so the original
"regardless of claimed content-type" does not hold (see the
counterexample), but with no registry match the `%PDF` magic number always
wins. -/
theorem C3_amended (content : Bytes) (ct : String)
    (hpdf : bytesPrefix [0x25, 0x50, 0x44, 0x46] content = true)
    (hct : ∀ p ∈ FILE_TYPES, ∀ s ∈ p.2.content_types, pyIn s (strToLower ct) = false) :
    detect_file_type (PyVal.bytes content) ct = Except.ok (some FileKind.pdf) := by
  obtain ⟨tail, rfl⟩ := (bytesPrefix_iff _ content).mp hpdf
  have htake : ([0x25, 0x50, 0x44, 0x46] ++ (tail : Bytes)).take 32 =
      0x25 :: 0x50 :: 0x44 :: 0x46 :: tail.take 28 := by
    rw [List.take_append_eq_append_take]
    rfl
  have hmagic : magicFind (pyTake 32 (PyVal.bytes ([0x25, 0x50, 0x44, 0x46] ++ tail)))
      FILE_TYPES = Except.ok (some FileKind.pdf) := by
    simp only [pyTake, htake]
    simp [magicFind, magicMatch, pyStartswithBytes, FILE_TYPES, bytesPrefix]
  by_cases hct0 : ct = ""
  · subst hct0
    unfold detect_file_type
    rw [if_neg (by simp)]
    exact hmagic
  · unfold detect_file_type
    rw [if_pos hct0]
    have hfind : FILE_TYPES.find?
        (fun p => p.2.content_types.any (fun c => pyIn c (strToLower ct))) = none := by
      rw [List.find?_eq_none]
      intro p hp
      simp only [List.any_eq_true, not_exists, not_and, Bool.not_eq_true]
      intro c hc
      exact hct p hp c hc
    rw [hfind]
    have htp : pyIn "text/plain" (strToLower ct) = false := by
      have hmem : (FileKind.text,
          ({ content_types := ["text/plain", "text/txt"], extensions := [".txt"],
             magic_numbers := [] } : TypeInfo)) ∈ FILE_TYPES := by decide
      exact hct _ hmem "text/plain" (by decide)
    rw [if_neg (by simp [htp])]
    exact hmagic

/-- C3 amended, witness: the concrete bytes of `%PDF-` with the claimed
content-type `application/octet-stream` (which matches no registry entry)
are classified `pdf`. -/
theorem C3_amended_witness :
    bytesPrefix [0x25, 0x50, 0x44, 0x46] [0x25, 0x50, 0x44, 0x46, 0x2D] = true ∧
    detect_file_type (PyVal.bytes [0x25, 0x50, 0x44, 0x46, 0x2D])
      "application/octet-stream" = Except.ok (some FileKind.pdf) :=
  ⟨by decide,
   C3_amended [0x25, 0x50, 0x44, 0x46, 0x2D] "application/octet-stream"
     (by decide) (by decide)⟩

/-- C4: for a record whose reference names an existing local file, whose
current text is non-empty, and whose file mtime is at or before the
record's `updated_at`, the iteration only writes the up-to-date message
into `error` and commits: no text changes anywhere in the table, the
converter is never invoked (no path is handed to it) and no temporary
artifact is touched. -/
theorem C4_local_skip (env : Env) (now : Nat) (st : St) (r : Record)
    (href : r.reference ≠ "")
    (hex : env.pathExists r.reference = true)
    (htext : r.text ≠ "")
    (hmt : env.mtime r.reference ≤ r.updated_at) :
    processRecord env now st r =
      { st with
        db := setError r.id (fileUpToDateMsg (env.mtime r.reference) r.updated_at) st.db } ∧
    (processRecord env now st r).db.map Record.text = st.db.map Record.text ∧
    (processRecord env now st r).mdCalls = st.mdCalls ∧
    (processRecord env now st r).fs = st.fs := by
  have hb := branchLocal_skip env now r st ⟨htext, hmt⟩
  have hrt := runTry_of_cont env now r st _ ((tryBody_local env now r st hex).trans hb)
  have hp := processRecord_of_none env now st r _ href hrt
  refine ⟨hp, ?_, ?_, ?_⟩
  · rw [hp]
    exact dbUpdate_map_field Record.text r.id
      (fun q => { q with error := some (fileUpToDateMsg (env.mtime r.reference) r.updated_at) })
      (fun q => rfl) st.db
  · rw [hp]
  · rw [hp]

/-- C4 witness: the concrete stale local file `/w.txt` (mtime 5, record
updated at 9, prior text non-empty) is skipped with only the message
written. -/
theorem C4_local_skip_witness :
    (envC4.pathExists rC4.reference = true ∧ rC4.text ≠ "" ∧
      envC4.mtime rC4.reference ≤ rC4.updated_at) ∧
    processRecord envC4 0 (initSt [rC4]) rC4 =
      { initSt [rC4] with db := setError rC4.id (fileUpToDateMsg 5 9) [rC4] } := by
  refine ⟨⟨by decide, by decide, by decide⟩, ?_⟩
  exact (C4_local_skip envC4 0 (initSt [rC4]) rC4 (by decide) (by decide)
    (by decide) (by decide)).1

/-- C7 amended: a pass that reaches the shared text-update with an
assigned `markdown_text` performs exactly the `text`/`hash`/`update_flg`
write — the `error` column of every row is left unchanged, so a successful
terminal outcome writes no message (skip and failure outcomes do write
one, per the staleness-skip and failure-isolation theorems). -/
theorem C7_amended (env : Env) (now : Nat) (r : Record) (st st1 : St) (t : String)
    (href : r.reference ≠ "")
    (hfall : tryBody env now r st = (st1, Flow.fall))
    (hvar : st1.markdownVar = some t) :
    processRecord env now st r =
      { st1 with db := setTextHash env.sha1 r.id t st1.db } ∧
    (processRecord env now st r).db.map Record.error = st1.db.map Record.error := by
  have hrt := runTry_of_fall env now r st st1 t hfall hvar
  have hp := processRecord_of_none env now st r _ href hrt
  refine ⟨hp, ?_⟩
  rw [hp]
  exact dbUpdate_map_field Record.error r.id
    (fun q => { q with text := t, hash := env.sha1 t, update_flg := 1 })
    (fun q => rfl) st1.db

/-- C7 amended, witness: the concrete successful pass over `/g.txt`
performs the final text-update and leaves the `error` column as the branch
left it. -/
theorem C7_amended_witness :
    processRecord envC7 0 (initSt [rC7]) rC7 =
      { (tryBody envC7 0 rC7 (initSt [rC7])).1 with
        db := setTextHash envC7.sha1 rC7.id "TX" (tryBody envC7 0 rC7 (initSt [rC7])).1.db } ∧
    (processRecord envC7 0 (initSt [rC7]) rC7).db.map Record.error =
      (tryBody envC7 0 rC7 (initSt [rC7])).1.db.map Record.error :=
  C7_amended envC7 0 rC7 (initSt [rC7]) (tryBody envC7 0 rC7 (initSt [rC7])).1 "TX"
    (by decide) (by decide) (by decide)

/-- C9 counterexample: in the `/tmp/report.docx` scenario the artifact
handed to the external converter is `temp_0.doc`, not the `temp_0.docx`
the claim requires — `save_temp_file` uses the kind's first registered
extension and never consults the extension resolver, although the resolver
would return `.docx` for these bytes; the rest of the scenario (word kind,
`update_flg = 1`) does hold. -/
theorem C9_counterexample :
    (processRecord envC9 0 (initSt [rC9]) rC9).mdCalls = ["temp_0.doc"] ∧
    detect_file_extension (PyVal.bytes [0x50, 0x4B, 0x03, 0x04, 0x01])
      (ext_content_type ".docx") = Except.ok (some ".docx") ∧
    ("temp_0.doc" : String) ≠ "temp_0.docx" ∧
    (findRow (processRecord envC9 0 (initSt [rC9]) rC9).db 5).map Record.update_flg =
      some 1 := by
  refine ⟨by decide, rfl, by decide, by decide⟩

/-- C9 amended: for a record referencing an existing local `.docx` file
whose content begins with `PK 03 04` and whose prior text is empty, the
Classifier yields `word`, the temporary artifact handed to the external
converter carries the `.doc` extension (the first registered extension of
the word kind — the extension resolver, which would say `.docx`, is never
invoked by the pipeline), and on success `update_flg` becomes 1. -/
theorem C9_amended (env : Env) (now : Nat) (st : St) (r : Record) (t : String)
    (href : r.reference ≠ "")
    (hex : env.pathExists r.reference = true)
    (htext : r.text = "")
    (hext : strToLower (splitextExt r.reference) = ".docx")
    (hpk : bytesPrefix [0x50, 0x4B, 0x03, 0x04] (env.readFile r.reference) = true)
    (hmd : env.mdConvert (temp_file_name now FileKind.word) = MdResult.ok t) :
    detect_file_type (PyVal.bytes (env.readFile r.reference))
      (ext_content_type ".docx") = Except.ok (some FileKind.word) ∧
    detect_file_extension (PyVal.bytes (env.readFile r.reference))
      (ext_content_type ".docx") = Except.ok (some ".docx") ∧
    temp_file_name now FileKind.word = "temp_" ++ toString now ++ ".doc" ∧
    processRecord env now st r =
      { st with db := setTextHash env.sha1 r.id t (setTextHash env.sha1 r.id t st.db),
                markdownVar := some t,
                mdCalls := temp_file_name now FileKind.word :: st.mdCalls } := by
  have h1 : detect_file_type (PyVal.bytes (env.readFile r.reference))
      (ext_content_type ".docx") = Except.ok (some FileKind.word) := rfl
  have h2 : detect_file_extension (PyVal.bytes (env.readFile r.reference))
      (ext_content_type ".docx") = Except.ok (some ".docx") := by
    unfold detect_file_extension
    simp only [pyStartswithBytes, hpk]
    rfl
  have hcv : convert_content env now (PyVal.bytes (env.readFile r.reference))
      (ext_content_type (strToLower (splitextExt r.reference))) r.id st =
      (some t, { st with mdCalls := temp_file_name now FileKind.word :: st.mdCalls }) := by
    rw [hext]
    exact convert_content_word_ok env now (env.readFile r.reference)
      (ext_content_type ".docx") r.id st t h1 hmd
  have hb := branchLocal_conv env now r st (by simp [staleSkip, htext]) hcv
  have hrt := runTry_of_fall env now r st _ t ((tryBody_local env now r st hex).trans hb) rfl
  have hp : processRecord env now st r =
      { st with db := setTextHash env.sha1 r.id t (setTextHash env.sha1 r.id t st.db),
                markdownVar := some t,
                mdCalls := temp_file_name now FileKind.word :: st.mdCalls } :=
    processRecord_of_none env now st r _ href hrt
  exact ⟨h1, h2, rfl, hp⟩

/-- C9 amended, witness: the concrete `/tmp/report.docx` scenario, run
end to end. -/
theorem C9_amended_witness :
    (envC9.pathExists rC9.reference = true ∧ rC9.text = "" ∧
      strToLower (splitextExt rC9.reference) = ".docx" ∧
      bytesPrefix [0x50, 0x4B, 0x03, 0x04] (envC9.readFile rC9.reference) = true ∧
      envC9.mdConvert (temp_file_name 0 FileKind.word) = MdResult.ok "W") ∧
    processRecord envC9 0 (initSt [rC9]) rC9 =
      { initSt [rC9] with
        db := setTextHash envC9.sha1 rC9.id "W" (setTextHash envC9.sha1 rC9.id "W" [rC9]),
        markdownVar := some "W",
        mdCalls := [temp_file_name 0 FileKind.word] } := by
  refine ⟨⟨by decide, by decide, by decide, by decide, by decide⟩, ?_⟩
  exact (C9_amended envC9 0 (initSt [rC9]) rC9 "W" (by decide) (by decide) (by decide)
    (by decide) (by decide) (by decide)).2.2.2

/-- C10: a successful local-file pass performs exactly the double
`text`/`hash`/`update_flg` write: `updated_at` (and every column other
than `text`, `hash`, `update_flg`) is unchanged across the whole table, so
the staleness baseline of the next run is still the value set by the last
pull, and whenever the file's mtime was strictly newer than `updated_at`
the skip predicate is still false for the updated row — the same unchanged
file is fetched and converted again on the next run. -/
theorem C10_pipeline_frame (env : Env) (now : Nat) (st : St) (r : Record)
    (t : String) (st1 : St)
    (href : r.reference ≠ "")
    (hex : env.pathExists r.reference = true)
    (hnoskip : ¬ staleSkip env r.text r.reference r.updated_at)
    (hconv : convert_content env now (PyVal.bytes (env.readFile r.reference))
        (ext_content_type (strToLower (splitextExt r.reference))) r.id st = (some t, st1))
    (hrow : ∀ q ∈ st.db, q.id = r.id →
      q.updated_at = r.updated_at ∧ q.reference = r.reference) :
    processRecord env now st r =
      { st1 with db := setTextHash env.sha1 r.id t (setTextHash env.sha1 r.id t st1.db),
                 markdownVar := some t } ∧
    (processRecord env now st r).db.map Record.updated_at =
      st.db.map Record.updated_at ∧
    (processRecord env now st r).db.map
        (fun q => (q.id, q.title, q.reference, q.group_id, q.created_by, q.created_at,
          q.deleted, q.error)) =
      st.db.map
        (fun q => (q.id, q.title, q.reference, q.group_id, q.created_by, q.created_at,
          q.deleted, q.error)) ∧
    (r.updated_at < env.mtime r.reference →
      ∀ q ∈ (processRecord env now st r).db, q.id = r.id →
        ¬ staleSkip env q.text q.reference q.updated_at) := by
  obtain ⟨hdb1, hmv1, hfs1⟩ := convert_content_some hconv
  have hb := branchLocal_conv env now r st hnoskip hconv
  have hrt := runTry_of_fall env now r st _ t ((tryBody_local env now r st hex).trans hb) rfl
  have hp : processRecord env now st r =
      { st1 with db := setTextHash env.sha1 r.id t (setTextHash env.sha1 r.id t st1.db),
                 markdownVar := some t } :=
    processRecord_of_none env now st r _ href hrt
  refine ⟨hp, ?_, ?_, ?_⟩
  · rw [hp]
    show (setTextHash env.sha1 r.id t (setTextHash env.sha1 r.id t st1.db)).map
      Record.updated_at = st.db.map Record.updated_at
    rw [hdb1]
    simp only [setTextHash]
    rw [dbUpdate_map_field Record.updated_at r.id
        (fun q => { q with text := t, hash := env.sha1 t, update_flg := 1 }) (fun q => rfl),
      dbUpdate_map_field Record.updated_at r.id
        (fun q => { q with text := t, hash := env.sha1 t, update_flg := 1 }) (fun q => rfl)]
  · rw [hp]
    show (setTextHash env.sha1 r.id t (setTextHash env.sha1 r.id t st1.db)).map
        (fun q => (q.id, q.title, q.reference, q.group_id, q.created_by, q.created_at,
          q.deleted, q.error)) =
      st.db.map
        (fun q => (q.id, q.title, q.reference, q.group_id, q.created_by, q.created_at,
          q.deleted, q.error))
    rw [hdb1]
    simp only [setTextHash]
    rw [dbUpdate_map_field
        (fun q => (q.id, q.title, q.reference, q.group_id, q.created_by, q.created_at,
          q.deleted, q.error)) r.id
        (fun q => { q with text := t, hash := env.sha1 t, update_flg := 1 }) (fun q => rfl),
      dbUpdate_map_field
        (fun q => (q.id, q.title, q.reference, q.group_id, q.created_by, q.created_at,
          q.deleted, q.error)) r.id
        (fun q => { q with text := t, hash := env.sha1 t, update_flg := 1 }) (fun q => rfl)]
  · intro hlt q hq hqid
    rw [hp] at hq
    replace hq : q ∈ setTextHash env.sha1 r.id t (setTextHash env.sha1 r.id t st1.db) := hq
    simp only [setTextHash] at hq
    obtain ⟨q1, hq1, hEq1⟩ := mem_dbUpdate hq
    obtain ⟨q0, hq0, hEq0⟩ := mem_dbUpdate hq1
    rw [hdb1] at hq0
    have hfields : q.updated_at = q0.updated_at ∧ q.reference = q0.reference ∧
        q.id = q0.id := by
      subst hEq1
      subst hEq0
      by_cases h0 : q0.id = r.id <;> simp [h0]
    have hq0id : q0.id = r.id := by rw [← hfields.2.2, hqid]
    obtain ⟨hup, hrf⟩ := hrow q0 hq0 hq0id
    intro hss
    have h2 := hss.2
    rw [hfields.2.1, hrf, hfields.1, hup] at h2
    omega

/-- C10 witness: the concrete `/h.txt` scenario (mtime 50, baseline 7):
after the successful pass `updated_at` is unchanged and the skip predicate
is still false for the record's row. -/
theorem C10_pipeline_frame_witness :
    (¬ staleSkip envC10 rC10.text rC10.reference rC10.updated_at) ∧
    (processRecord envC10 0 (initSt [rC10]) rC10).db.map Record.updated_at =
      [rC10].map Record.updated_at ∧
    (rC10.updated_at < envC10.mtime rC10.reference →
      ∀ q ∈ (processRecord envC10 0 (initSt [rC10]) rC10).db, q.id = rC10.id →
        ¬ staleSkip envC10 q.text q.reference q.updated_at) := by
  have h := C10_pipeline_frame envC10 0 (initSt [rC10]) rC10 "N" (initSt [rC10])
    (by decide) (by decide) (by decide) (by decide) (by decide)
  exact ⟨by decide, h.2.1, h.2.2.2⟩

/-- C1: whenever processing a record raises (its fetch, classification or
conversion fails with an exception), the run does not abort: the loop
still folds over the remaining records, and the exception message is
written into exactly that record's `error` field and survives to the end
of the batch (the remaining records write only at their own ids). -/
theorem C1_failure_isolation (env : Env) (now : Nat) (pre post : List Record)
    (r : Record) (m : String)
    (href : r.reference ≠ "")
    (hpost : ∀ q ∈ post, q.id ≠ r.id)
    (hraise : (runTry env now r (runRecords env now pre (initSt (pre ++ r :: post)))).2 =
      some m) :
    process_content env now (initSt (pre ++ r :: post)) =
      runRecords env now post
        (processRecord env now (runRecords env now pre (initSt (pre ++ r :: post))) r) ∧
    ∃ row, findRow (process_content env now (initSt (pre ++ r :: post))).db r.id =
      some row ∧ row.error = some m := by
  have hsplit : process_content env now (initSt (pre ++ r :: post)) =
      runRecords env now post
        (processRecord env now (runRecords env now pre (initSt (pre ++ r :: post))) r) := by
    unfold process_content runRecords
    rw [show (initSt (pre ++ r :: post)).db = pre ++ r :: post from rfl]
    rw [List.foldl_append, List.foldl_cons]
  have hpr := processRecord_of_some env now
    (runRecords env now pre (initSt (pre ++ r :: post))) r
    (runTry env now r (runRecords env now pre (initSt (pre ++ r :: post)))).1 m href
    (by rw [← hraise])
  have hmem1 : r.id ∈
      (runTry env now r (runRecords env now pre (initSt (pre ++ r :: post)))).1.db.map
        Record.id := by
    rw [(runTry_writesAt env now r
        (runRecords env now pre (initSt (pre ++ r :: post)))).map_id]
    rw [runRecords_map_id env now pre (initSt (pre ++ r :: post))]
    simp [initSt]
  obtain ⟨row0, hrow0⟩ := findRow_exists hmem1
  have hrow1 : findRow (setError r.id m
      (runTry env now r (runRecords env now pre (initSt (pre ++ r :: post)))).1.db) r.id =
      some { row0 with error := some m } :=
    findRow_dbUpdate_self r.id (fun q => { q with error := some m }) (fun q => rfl)
      _ row0 hrow0
  refine ⟨hsplit, { row0 with error := some m }, ?_, rfl⟩
  rw [hsplit, runRecords_findRow_ne env now post r.id hpost
    (processRecord env now (runRecords env now pre (initSt (pre ++ r :: post))) r), hpr]
  exact hrow1

/-- C1 witness: a two-record batch whose first record's HEAD probe raises
`headboom`; the message ends up in that record's `error` field and the
batch completes. -/
theorem C1_failure_isolation_witness :
    ((runTry envC1 0 rC1a (runRecords envC1 0 [] (initSt ([] ++ rC1a :: [rC1b])))).2 =
      some "headboom") ∧
    ∃ row, findRow (process_content envC1 0 (initSt ([] ++ rC1a :: [rC1b]))).db rC1a.id =
      some row ∧ row.error = some "headboom" := by
  refine ⟨by decide, ?_⟩
  exact (C1_failure_isolation envC1 0 [] [rC1b] rC1a "headboom" (by decide) (by decide)
    (by decide)).2

end DataCollector
